import Mathlib

/-!
Shallow embedding of the CPU voxel raytracer (src/main.c) over exact
rational arithmetic.  Machine `float` values are modelled by `ℚ`; `int`
values by `Int`; the voxel array by a lookup function `Int → Nat`
indexed by the linear voxel index.  The transcendental functions
(`sinf`, `cosf`, `tanf`, `sqrtf`) used only by the camera setup are
passed as explicit function parameters, so every theorem below holds for
every interpretation of them.
-/

namespace VoxelRT

/-- Grid width, `GRID_X` in main.c. -/
def GRID_X : Int := 24

/-- Grid height, `GRID_Y` in main.c. -/
def GRID_Y : Int := 16

/-- Grid depth, `GRID_Z` in main.c. -/
def GRID_Z : Int := 24

/-- Total voxel count, `GRID_SIZE` in main.c. -/
def GRID_SIZE : Int := GRID_X * GRID_Y * GRID_Z

/-- Ray-buffer width, `IMG_W` in main.c. -/
def IMG_W : Nat := 320

/-- Ray-buffer height, `IMG_H` in main.c. -/
def IMG_H : Nat := 180

/-- Epsilon used in the `fabsf(dir) < 1e-6f` guards. -/
def SLAB_EPS : ℚ := 1 / 1000000

/-- The `1e30f` pseudo-infinity used by `ray_aabb` and the tMax/tDelta setup. -/
def T_INF : ℚ := 1000000000000000000000000000000

/-- `Vector3` of raymath, components modelled by `ℚ`. -/
@[ext] structure Vec3 where
  x : ℚ
  y : ℚ
  z : ℚ
deriving DecidableEq

/-- `IVec3` from main.c. -/
@[ext] structure IVec3 where
  x : Int
  y : Int
  z : Int
deriving DecidableEq

/-- raymath `Vector3Add`. -/
def Vector3Add (a b : Vec3) : Vec3 := ⟨a.x + b.x, a.y + b.y, a.z + b.z⟩

/-- raymath `Vector3Subtract`. -/
def Vector3Subtract (a b : Vec3) : Vec3 := ⟨a.x - b.x, a.y - b.y, a.z - b.z⟩

/-- raymath `Vector3Scale`. -/
def Vector3Scale (v : Vec3) (s : ℚ) : Vec3 := ⟨v.x * s, v.y * s, v.z * s⟩

/-- raymath `Vector3DotProduct`. -/
def Vector3DotProduct (a b : Vec3) : ℚ := a.x * b.x + a.y * b.y + a.z * b.z

/-- raymath `Vector3CrossProduct`. -/
def Vector3CrossProduct (a b : Vec3) : Vec3 :=
  ⟨a.y * b.z - a.z * b.y, a.z * b.x - a.x * b.z, a.x * b.y - a.y * b.x⟩

/-- raymath `Vector3Normalize`; `sqrtA` models `sqrtf`.  When the computed
length is zero the vector is returned unchanged, as in raymath. -/
def Vector3Normalize (sqrtA : ℚ → ℚ) (v : Vec3) : Vec3 :=
  let length := sqrtA (v.x * v.x + v.y * v.y + v.z * v.z)
  if length ≠ 0 then ⟨v.x * (1 / length), v.y * (1 / length), v.z * (1 / length)⟩ else v

/-- C `fabsf`. -/
def fabs (q : ℚ) : ℚ := if q < 0 then -q else q

/-- C `fmaxf`. -/
def fmax (a b : ℚ) : ℚ := if a < b then b else a

/-- C `fminf`. -/
def fmin (a b : ℚ) : ℚ := if b < a then b else a

/-- `clamp_i32` from main.c. -/
def clamp_i32 (v lo hi : Int) : Int := if v < lo then lo else if v > hi then hi else v

/-- `clamp_f32` from main.c. -/
def clamp_f32 (v lo hi : ℚ) : ℚ := if v < lo then lo else if v > hi then hi else v

/-- `voxel_index` from main.c: linear index of a voxel coordinate. -/
def voxel_index (x y z : Int) : Int := x + y * GRID_X + z * GRID_X * GRID_Y

/-- `inside_grid` from main.c. -/
def inside_grid (x y z : Int) : Prop :=
  0 ≤ x ∧ x < GRID_X ∧ 0 ≤ y ∧ y < GRID_Y ∧ 0 ≤ z ∧ z < GRID_Z

instance (x y z : Int) : Decidable (inside_grid x y z) := by
  unfold inside_grid; infer_instance

/-- `set_voxel` from main.c: write one voxel if coordinates are valid.
The voxel array is a lookup function on the linear index. -/
def set_voxel (x y z : Int) (value : Nat) (voxels : Int → Nat) : Int → Nat :=
  if inside_grid x y z then Function.update voxels (voxel_index x y z) value else voxels

/-- `axis_slab` from main.c.  The C function passes `tmin`/`tmax` in-out and
returns a `bool`; here the updated pair is returned in `some`, and `none`
models `return false` (which leaves the interval unused). -/
def axis_slab (orig dir mn mx tmin tmax : ℚ) : Option (ℚ × ℚ) :=
  if fabs dir < SLAB_EPS then
    if orig < mn ∨ orig > mx then none else some (tmin, tmax)
  else
    let inv := 1 / dir
    let t_a := (mn - orig) * inv
    let t_b := (mx - orig) * inv
    let p := if t_a > t_b then (t_b, t_a) else (t_a, t_b)
    some (fmax tmin p.1, fmin tmax p.2)

/-- `ray_aabb` from main.c: clip a ray against the grid bounding box,
returning the entry/exit parametric distances. -/
def ray_aabb (ro rd : Vec3) : Option (ℚ × ℚ) :=
  match axis_slab ro.x rd.x 0 (GRID_X : ℚ) (-T_INF) T_INF with
  | none => none
  | some (tmin, tmax) =>
    match axis_slab ro.y rd.y 0 (GRID_Y : ℚ) tmin tmax with
    | none => none
    | some (tmin, tmax) =>
      match axis_slab ro.z rd.z 0 (GRID_Z : ℚ) tmin tmax with
      | none => none
      | some (tmin, tmax) =>
        if tmax < fmax tmin 0 then none else some (tmin, tmax)

/-- `TraceResult` from main.c. -/
@[ext] structure TraceResult where
  hit : Bool
  entered_grid : Bool
  steps : Nat
  col : Vec3
deriving DecidableEq

/-- `LIGHT_DIR` from main.c (decimal literals of the float constants). -/
def LIGHT_DIR : Vec3 := ⟨46608496 / 100000000, 8474272 / 10000000, 25422817 / 100000000⟩

/-- `sample_voxel_color` from main.c. -/
def sample_voxel_color (id : Nat) : Vec3 :=
  match id with
  | 1 => ⟨28 / 100, 30 / 100, 33 / 100⟩
  | 2 => ⟨95 / 100, 30 / 100, 18 / 100⟩
  | 3 => ⟨15 / 100, 75 / 100, 35 / 100⟩
  | 4 => ⟨20 / 100, 45 / 100, 95 / 100⟩
  | _ => ⟨1, 1, 1⟩

/-- Sky color of the early-miss branch in `trace_ray_amanatides_woo`
(the ray never entered the grid box). -/
def sky_color_no_enter (rd : Vec3) : Vec3 :=
  let sky := clamp_f32 (1 / 2 * (rd.y + 1)) 0 1
  ⟨55 / 100 + 20 / 100 * sky, 70 / 100 + 15 / 100 * sky, 95 / 100⟩

/-- Sky color of the post-loop miss branch in `trace_ray_amanatides_woo`
(the ray entered the grid box but hit nothing). -/
def sky_color_exhausted (rd : Vec3) : Vec3 :=
  let sky := clamp_f32 (1 / 2 * (rd.y + 1)) 0 1
  ⟨50 / 100 + 30 / 100 * sky, 65 / 100 + 20 / 100 * sky, 95 / 100⟩

/-- Hit shading of `trace_ray_amanatides_woo`: lambert term against
`LIGHT_DIR` plus the height-based ambient term. -/
def shade_hit (normal : IVec3) (id : Nat) (cell_y : Int) : Vec3 :=
  let base := sample_voxel_color id
  let n : Vec3 := ⟨(normal.x : ℚ), (normal.y : ℚ), (normal.z : ℚ)⟩
  let ndotl := fmax (Vector3DotProduct n LIGHT_DIR) 0
  let ao := 7 / 10 + 3 / 10 * ((cell_y : ℚ) / (GRID_Y : ℚ))
  Vector3Scale base (2 / 10 + 8 / 10 * ndotl * ao)

/-- The mutable state of the DDA loop in `trace_ray_amanatides_woo`. -/
structure DDAState where
  cell : IVec3
  step : IVec3
  t : ℚ
  tMax : Vec3
  tDelta : Vec3
  normal : IVec3
  steps : Nat
deriving DecidableEq

/-- The three grid axes. -/
inductive Axis where
  | ax : Axis
  | ay : Axis
  | az : Axis
deriving DecidableEq

/-- The axis chosen by the advance branch of the DDA loop:
`if (t_max_x < t_max_y && t_max_x < t_max_z) ... else if (t_max_y < t_max_z) ... else ...`. -/
def ddaPickAxis (tMax : Vec3) : Axis :=
  if tMax.x < tMax.y ∧ tMax.x < tMax.z then Axis.ax
  else if tMax.y < tMax.z then Axis.ay
  else Axis.az

/-- One advance of the DDA loop (lines 281-296 of main.c): step the chosen
axis's cell coordinate, move `t` to that axis's `tMax`, bump that `tMax`
by its `tDelta`, and record the crossed face's normal. -/
def ddaAdvance (s : DDAState) : DDAState :=
  match ddaPickAxis s.tMax with
  | Axis.ax =>
    { s with cell := { s.cell with x := s.cell.x + s.step.x },
             t := s.tMax.x,
             tMax := { s.tMax with x := s.tMax.x + s.tDelta.x },
             normal := ⟨-s.step.x, 0, 0⟩ }
  | Axis.ay =>
    { s with cell := { s.cell with y := s.cell.y + s.step.y },
             t := s.tMax.y,
             tMax := { s.tMax with y := s.tMax.y + s.tDelta.y },
             normal := ⟨0, -s.step.y, 0⟩ }
  | Axis.az =>
    { s with cell := { s.cell with z := s.cell.z + s.step.z },
             t := s.tMax.z,
             tMax := { s.tMax with z := s.tMax.z + s.tDelta.z },
             normal := ⟨0, 0, -s.step.z⟩ }

/-- Initial voxel cell of the traversal (lines 207-214 of main.c): the
floor of the clipped entry point, clamped into the valid index range. -/
def initCell (ro rd : Vec3) (t_enter : ℚ) : IVec3 :=
  let t := fmax t_enter 0
  let p := Vector3Add ro (Vector3Scale rd t)
  ⟨clamp_i32 ⌊p.x⌋ 0 (GRID_X - 1), clamp_i32 ⌊p.y⌋ 0 (GRID_Y - 1),
   clamp_i32 ⌊p.z⌋ 0 (GRID_Z - 1)⟩

/-- Initial DDA state (lines 207-253 of main.c): entry `t`, clamped start
cell, per-axis step signs, first boundary crossings `tMax` and increments
`tDelta` (pseudo-infinite on near-parallel axes), default normal (0,1,0),
zero steps. -/
def initState (ro rd : Vec3) (t_enter : ℚ) : DDAState :=
  let t := fmax t_enter 0
  let p := Vector3Add ro (Vector3Scale rd t)
  let cell := initCell ro rd t_enter
  let step : IVec3 :=
    ⟨if rd.x > 0 then 1 else -1, if rd.y > 0 then 1 else -1, if rd.z > 0 then 1 else -1⟩
  let next_boundary : Vec3 :=
    ⟨((cell.x + if step.x > 0 then 1 else 0 : Int) : ℚ),
     ((cell.y + if step.y > 0 then 1 else 0 : Int) : ℚ),
     ((cell.z + if step.z > 0 then 1 else 0 : Int) : ℚ)⟩
  let t_max_x := if fabs rd.x > SLAB_EPS then t + (next_boundary.x - p.x) / rd.x else T_INF
  let t_delta_x := if fabs rd.x > SLAB_EPS then fabs (1 / rd.x) else T_INF
  let t_max_y := if fabs rd.y > SLAB_EPS then t + (next_boundary.y - p.y) / rd.y else T_INF
  let t_delta_y := if fabs rd.y > SLAB_EPS then fabs (1 / rd.y) else T_INF
  let t_max_z := if fabs rd.z > SLAB_EPS then t + (next_boundary.z - p.z) / rd.z else T_INF
  let t_delta_z := if fabs rd.z > SLAB_EPS then fabs (1 / rd.z) else T_INF
  ⟨cell, step, t, ⟨t_max_x, t_max_y, t_max_z⟩, ⟨t_delta_x, t_delta_y, t_delta_z⟩, ⟨0, 1, 0⟩, 0⟩

/-- The DDA loop of `trace_ray_amanatides_woo` (lines 256-297 of main.c),
with the 256-iteration budget as explicit fuel.  `V` is the voxel array
as a lookup on the linear index. -/
def ddaLoop (V : Int → Nat) (rd : Vec3) (t_exit : ℚ) : Nat → DDAState → TraceResult
  | 0, s => ⟨false, true, s.steps, sky_color_exhausted rd⟩
  | fuel + 1, s =>
    if ¬ inside_grid s.cell.x s.cell.y s.cell.z ∨ s.t > t_exit then
      ⟨false, true, s.steps, sky_color_exhausted rd⟩
    else
      let id := V (voxel_index s.cell.x s.cell.y s.cell.z)
      if id ≠ 0 then
        ⟨true, true, s.steps + 1, shade_hit s.normal id s.cell.y⟩
      else
        ddaLoop V rd t_exit fuel (ddaAdvance { s with steps := s.steps + 1 })

/-- `trace_ray_amanatides_woo` from main.c. -/
def trace_ray_amanatides_woo (V : Int → Nat) (ro rd : Vec3) : TraceResult :=
  match ray_aabb ro rd with
  | none => ⟨false, false, 0, sky_color_no_enter rd⟩
  | some (t_enter, t_exit) => ddaLoop V rd t_exit 256 (initState ro rd t_enter)

/-- `FrameStats` from main.c. -/
@[ext] structure FrameStats where
  rays : Int
  rays_entered_grid : Int
  hits : Int
  total_steps : Int
  max_steps : Int
  avg_steps_per_ray : ℚ
  hit_ratio : ℚ
  rays_per_sec : ℚ
  steps_per_sec : ℚ
deriving DecidableEq

/-- raylib `Color` (RGBA bytes). -/
@[ext] structure Color where
  r : Nat
  g : Nat
  b : Nat
  a : Nat
deriving DecidableEq

/-- The transcendental C library functions used by the camera setup,
abstracted as parameters. -/
structure TrigFns where
  sinA : ℚ → ℚ
  cosA : ℚ → ℚ
  tanA : ℚ → ℚ
  sqrtA : ℚ → ℚ

/-- C `(int)` cast of a float: truncation toward zero. -/
def truncToInt (q : ℚ) : Int := if 0 ≤ q then ⌊q⌋ else -⌊-q⌋

/-- Conversion of a shaded color to an 8-bit RGBA pixel
(lines 364-373 of main.c). -/
def shade_pixel (col : Vec3) : Color :=
  ⟨(clamp_i32 (truncToInt (col.x * 255)) 0 255).toNat,
   (clamp_i32 (truncToInt (col.y * 255)) 0 255).toNat,
   (clamp_i32 (truncToInt (col.z * 255)) 0 255).toNat, 255⟩

/-- Folding one `TraceResult` into the frame counters
(lines 359-362 of main.c). -/
def accumStats (stats : FrameStats) (tr : TraceResult) : FrameStats :=
  { stats with
    rays_entered_grid := stats.rays_entered_grid + if tr.entered_grid then 1 else 0,
    hits := stats.hits + if tr.hit then 1 else 0,
    total_steps := stats.total_steps + (tr.steps : Int),
    max_steps := if (tr.steps : Int) > stats.max_steps then (tr.steps : Int) else stats.max_steps }

/-- The inner x loop of `render_voxel_image`: trace one ray per column,
accumulate stats, append the pixel, and advance the ray incrementally by
`ray_step_x`. -/
def renderRow (tf : TrigFns) (V : Int → Nat) (cam ray_step_x : Vec3) :
    Nat → Vec3 → FrameStats → List Color → FrameStats × List Color
  | 0, _, stats, pixels => (stats, pixels)
  | n + 1, ray, stats, pixels =>
    let dir := Vector3Normalize tf.sqrtA ray
    let tr := trace_ray_amanatides_woo V cam dir
    renderRow tf V cam ray_step_x n (Vector3Add ray ray_step_x) (accumStats stats tr)
      (pixels ++ [shade_pixel tr.col])

/-- The outer y loop of `render_voxel_image`: for each scanline build the
row-base ray and run the inner loop. -/
def renderRows (tf : TrigFns) (V : Int → Nat) (cam forward up right : Vec3)
    (u_start v_start v_step : ℚ) (ray_step_x : Vec3) :
    Nat → Nat → FrameStats → List Color → FrameStats × List Color
  | 0, _, stats, pixels => (stats, pixels)
  | n + 1, y, stats, pixels =>
    let v := v_start + (y : ℚ) * v_step
    let row_base := Vector3Add forward (Vector3Scale up v)
    let ray := Vector3Add row_base (Vector3Scale right u_start)
    let out := renderRow tf V cam ray_step_x IMG_W ray stats pixels
    renderRows tf V cam forward up right u_start v_start v_step ray_step_x n (y + 1) out.1 out.2

/-- The post-loop derived statistics of `render_voxel_image`
(lines 379-386 of main.c): averages/ratios when `rays > 0`, and the
throughput fields when `dt` exceeds the `1e-6` epsilon. -/
def finalizeStats (dt : ℚ) (stats : FrameStats) : FrameStats :=
  let stats :=
    if stats.rays > 0 then
      { stats with
        avg_steps_per_ray := (stats.total_steps : ℚ) / (stats.rays : ℚ),
        hit_ratio := (stats.hits : ℚ) / (stats.rays : ℚ) }
    else stats
  if dt > 1 / 1000000 then
    { stats with
      rays_per_sec := (stats.rays : ℚ) / dt,
      steps_per_sec := (stats.total_steps : ℚ) / dt }
  else stats

/-- `render_voxel_image` from main.c: one ray per pixel, returning the
frame statistics and the pixel buffer in raster order.  Inputs are the
globals it reads (`time_s`, `freeze_camera`, the voxel grid) and the
frame's elapsed time `dt`. -/
def render_voxel_image (tf : TrigFns) (time_s : ℚ) (freeze_camera : Bool)
    (V : Int → Nat) (dt : ℚ) : FrameStats × List Color :=
  let stats0 : FrameStats := ⟨((IMG_W * IMG_H : Nat) : Int), 0, 0, 0, 0, 0, 0, 0, 0⟩
  let center : Vec3 := ⟨(GRID_X : ℚ) * (1 / 2), 3, (GRID_Z : ℚ) * (1 / 2)⟩
  let orbit_t := time_s * (6 / 10)
  let radius : ℚ := 18
  let cam : Vec3 :=
    if freeze_camera then ⟨center.x + radius, 85 / 10, center.z⟩
    else ⟨center.x + tf.cosA orbit_t * radius,
          85 / 10 + tf.sinA (orbit_t * (7 / 10)) * (15 / 10),
          center.z + tf.sinA orbit_t * radius⟩
  let forward := Vector3Normalize tf.sqrtA (Vector3Subtract center cam)
  let right := Vector3Normalize tf.sqrtA (Vector3CrossProduct forward ⟨0, 1, 0⟩)
  let up := Vector3Normalize tf.sqrtA (Vector3CrossProduct right forward)
  let aspect : ℚ := (IMG_W : ℚ) / (IMG_H : ℚ)
  let fov_scale := tf.tanA ((55 * (1 / 2)) * (314159265358979323846 / 100000000000000000000 / 180))
  let inv_img_w : ℚ := 1 / (IMG_W : ℚ)
  let inv_img_h : ℚ := 1 / (IMG_H : ℚ)
  let u_step := 2 * aspect * fov_scale * inv_img_w
  let v_step := -2 * fov_scale * inv_img_h
  let u_start := (-1 + inv_img_w) * aspect * fov_scale
  let v_start := (1 - inv_img_h) * fov_scale
  let ray_step_x := Vector3Scale right u_step
  let out := renderRows tf V cam forward up right u_start v_start v_step ray_step_x IMG_H 0 stats0 []
  (finalizeStats dt out.1, out.2)

/-- The incremental ray scheme of the render loop: the un-normalized ray
for column `x` of a scanline starts at `row_base + right * u_start`
(line 352 of main.c) and is obtained by `x` successive additions of
`ray_step_x = right * u_step` (lines 346 and 375). -/
def incrementalRay (forward up right : Vec3) (u_start u_step v : ℚ) : Nat → Vec3
  | 0 => Vector3Add (Vector3Add forward (Vector3Scale up v)) (Vector3Scale right u_start)
  | x + 1 => Vector3Add (incrementalRay forward up right u_start u_step v x)
      (Vector3Scale right u_step)

/-- Modelled from the spec: the direct closed-form per-pixel ray direction
`forward + up * v + right * (u_start + x * u_step)` that the incremental
scheme is claimed to reproduce exactly. -/
def closedFormRay (forward up right : Vec3) (u_start u_step v : ℚ) (x : Nat) : Vec3 :=
  Vector3Add (Vector3Add forward (Vector3Scale up v))
    (Vector3Scale right (u_start + (x : ℚ) * u_step))

/-! ### Helper lemmas -/

lemma ddaPickAxis_eq_ax {t : Vec3} (h : ddaPickAxis t = Axis.ax) :
    t.x < t.y ∧ t.x < t.z := by
  unfold ddaPickAxis at h
  by_cases h1 : t.x < t.y ∧ t.x < t.z
  · exact h1
  · rw [if_neg h1] at h
    by_cases h2 : t.y < t.z
    · rw [if_pos h2] at h; cases h
    · rw [if_neg h2] at h; cases h

lemma ddaPickAxis_eq_ay {t : Vec3} (h : ddaPickAxis t = Axis.ay) :
    t.y ≤ t.x ∧ t.y < t.z := by
  unfold ddaPickAxis at h
  by_cases h1 : t.x < t.y ∧ t.x < t.z
  · rw [if_pos h1] at h; cases h
  · rw [if_neg h1] at h
    by_cases h2 : t.y < t.z
    · push_neg at h1
      refine ⟨?_, h2⟩
      rcases lt_or_le t.x t.y with hxy | hxy
      · linarith [h1 hxy]
      · exact hxy
    · rw [if_neg h2] at h; cases h

lemma ddaPickAxis_eq_az {t : Vec3} (h : ddaPickAxis t = Axis.az) :
    t.z ≤ t.x ∧ t.z ≤ t.y := by
  unfold ddaPickAxis at h
  by_cases h1 : t.x < t.y ∧ t.x < t.z
  · rw [if_pos h1] at h; cases h
  · rw [if_neg h1] at h
    by_cases h2 : t.y < t.z
    · rw [if_pos h2] at h; cases h
    · push_neg at h1 h2
      refine ⟨?_, h2⟩
      rcases lt_or_le t.x t.y with hxy | hxy
      · linarith [h1 hxy]
      · linarith

/-! ### C1: DDA advance picks the smallest tMax, ties broken z, then y, then x -/

/-- C1 (counterexample): at a state whose `tMax` values are
`x = 1, y = 1, z = 2` — a tie involving axis x — the DDA advance steps
axis y (the y cell coordinate changes, the x one does not), refuting the
claim that x wins any tie involving x. -/
theorem dda_tie_break_counterexample :
    (⟨⟨5, 5, 5⟩, ⟨1, 1, 1⟩, 0, ⟨1, 1, 2⟩, ⟨1, 1, 1⟩, ⟨0, 1, 0⟩, 0⟩ : DDAState).tMax.x =
      (⟨⟨5, 5, 5⟩, ⟨1, 1, 1⟩, 0, ⟨1, 1, 2⟩, ⟨1, 1, 1⟩, ⟨0, 1, 0⟩, 0⟩ : DDAState).tMax.y ∧
    (⟨⟨5, 5, 5⟩, ⟨1, 1, 1⟩, 0, ⟨1, 1, 2⟩, ⟨1, 1, 1⟩, ⟨0, 1, 0⟩, 0⟩ : DDAState).tMax.x <
      (⟨⟨5, 5, 5⟩, ⟨1, 1, 1⟩, 0, ⟨1, 1, 2⟩, ⟨1, 1, 1⟩, ⟨0, 1, 0⟩, 0⟩ : DDAState).tMax.z ∧
    (ddaAdvance ⟨⟨5, 5, 5⟩, ⟨1, 1, 1⟩, 0, ⟨1, 1, 2⟩, ⟨1, 1, 1⟩, ⟨0, 1, 0⟩, 0⟩).cell.x = 5 ∧
    (ddaAdvance ⟨⟨5, 5, 5⟩, ⟨1, 1, 1⟩, 0, ⟨1, 1, 2⟩, ⟨1, 1, 1⟩, ⟨0, 1, 0⟩, 0⟩).cell.y = 6 := by
  refine ⟨rfl, by norm_num, ?_, ?_⟩ <;> norm_num [ddaAdvance, ddaPickAxis]

/-- C1 (amended): every DDA advance moves `t` to the smallest of the three
`tMax` values, and the axis chosen is a minimizer; when values are exactly
equal the tie is broken in the order z before y before x (x is chosen only
when strictly smallest than both others, y only when strictly smaller
than z). -/
theorem dda_advance_min_tie_break (s : DDAState) :
    (ddaAdvance s).t = min s.tMax.x (min s.tMax.y s.tMax.z) ∧
    (ddaPickAxis s.tMax = Axis.ax → s.tMax.x < s.tMax.y ∧ s.tMax.x < s.tMax.z) ∧
    (ddaPickAxis s.tMax = Axis.ay → s.tMax.y ≤ s.tMax.x ∧ s.tMax.y < s.tMax.z) ∧
    (ddaPickAxis s.tMax = Axis.az → s.tMax.z ≤ s.tMax.x ∧ s.tMax.z ≤ s.tMax.y) := by
  refine ⟨?_, fun h => ddaPickAxis_eq_ax h, fun h => ddaPickAxis_eq_ay h,
    fun h => ddaPickAxis_eq_az h⟩
  cases hp : ddaPickAxis s.tMax with
  | ax =>
    obtain ⟨h1, h2⟩ := ddaPickAxis_eq_ax hp
    simp only [ddaAdvance, hp]
    rw [min_eq_left (le_min h1.le h2.le)]
  | ay =>
    obtain ⟨h1, h2⟩ := ddaPickAxis_eq_ay hp
    simp only [ddaAdvance, hp]
    rw [min_eq_left h2.le, min_eq_right h1]
  | az =>
    obtain ⟨h1, h2⟩ := ddaPickAxis_eq_az hp
    simp only [ddaAdvance, hp]
    rw [min_eq_right h2, min_eq_right h1]

/-- C1 (witness): at `tMax = (1, 2, 3)` the advance moves `t` to the
minimum 1 and the x axis is picked because it is strictly smallest. -/
theorem dda_advance_min_tie_break_witness :
    (ddaAdvance ⟨⟨0, 0, 0⟩, ⟨1, 1, 1⟩, 0, ⟨1, 2, 3⟩, ⟨1, 1, 1⟩, ⟨0, 1, 0⟩, 0⟩).t =
      min (1 : ℚ) (min 2 3) ∧ ((1 : ℚ) < 2 ∧ (1 : ℚ) < 3) := by
  have h := dda_advance_min_tie_break ⟨⟨0, 0, 0⟩, ⟨1, 1, 1⟩, 0, ⟨1, 2, 3⟩, ⟨1, 1, 1⟩, ⟨0, 1, 0⟩, 0⟩
  exact ⟨h.1, h.2.1 (by norm_num [ddaPickAxis])⟩

/-! ### C4: near-parallel slab test -/

/-- C4: when the direction component's magnitude is below the `1e-6`
epsilon, `axis_slab` returns true iff the origin coordinate lies in
`[mn, mx]`, and the running `[tmin, tmax]` interval passes through
unchanged — so the result is independent of the interval state and no
division by the direction component is performed. -/
theorem axis_slab_parallel (orig dir mn mx tmin tmax : ℚ) (h : fabs dir < SLAB_EPS) :
    axis_slab orig dir mn mx tmin tmax =
      if mn ≤ orig ∧ orig ≤ mx then some (tmin, tmax) else none := by
  unfold axis_slab
  rw [if_pos h]
  by_cases hc : orig < mn ∨ orig > mx
  · rw [if_pos hc, if_neg]
    rintro ⟨hmn, hmx⟩
    rcases hc with hc | hc
    · linarith
    · linarith
  · push_neg at hc
    rw [if_neg, if_pos ⟨hc.1, hc.2⟩]
    push_neg
    exact hc

/-- C4 (witness): for a zero direction component the slab test passes at
an in-range origin with the interval `[-3, 7]` returned unchanged. -/
theorem axis_slab_parallel_witness :
    axis_slab 5 0 0 24 (-3) 7 = some ((-3 : ℚ), 7) := by
  rw [axis_slab_parallel 5 0 0 24 (-3) 7 (by norm_num [fabs, SLAB_EPS])]
  norm_num

/-! ### C6: set_voxel writes exactly the addressed in-range cell -/

lemma voxel_index_inj {x y z a b c : Int} (h1 : inside_grid x y z)
    (h2 : inside_grid a b c) (h : voxel_index a b c = voxel_index x y z) :
    a = x ∧ b = y ∧ c = z := by
  unfold inside_grid GRID_X GRID_Y GRID_Z at h1 h2
  unfold voxel_index GRID_X GRID_Y at h
  omega

/-- C6: `set_voxel` with out-of-range coordinates leaves every element of
the voxel grid unchanged; with in-range coordinates it writes the
addressed cell and leaves every other in-range cell unchanged. -/
theorem set_voxel_frame (x y z : Int) (v : Nat) (g : Int → Nat) :
    (¬ inside_grid x y z → ∀ i, set_voxel x y z v g i = g i) ∧
    (inside_grid x y z →
      set_voxel x y z v g (voxel_index x y z) = v ∧
      ∀ a b c, inside_grid a b c → (a, b, c) ≠ (x, y, z) →
        set_voxel x y z v g (voxel_index a b c) = g (voxel_index a b c)) := by
  constructor
  · intro h i
    unfold set_voxel
    rw [if_neg h]
  · intro h
    constructor
    · unfold set_voxel
      rw [if_pos h, Function.update_same]
    · intro a b c habc hne
      unfold set_voxel
      rw [if_pos h, Function.update_noteq]
      intro heq
      obtain ⟨ha, hb, hc⟩ := voxel_index_inj h habc heq
      exact hne (by simp [ha, hb, hc])

/-- C6 (witness): an out-of-range write at `x = -1` leaves cell 5 of the
all-zero grid unchanged, and an in-range write at `(1, 0, 0)` stores the
value there while leaving cell `(2, 0, 0)` unchanged. -/
theorem set_voxel_frame_witness :
    set_voxel (-1) 0 0 7 (fun _ => 0) 5 = 0 ∧
    set_voxel 1 0 0 7 (fun _ => 0) (voxel_index 1 0 0) = 7 ∧
    set_voxel 1 0 0 7 (fun _ => 0) (voxel_index 2 0 0) = 0 := by
  refine ⟨(set_voxel_frame (-1) 0 0 7 (fun _ => 0)).1 (by decide) 5, ?_, ?_⟩
  · exact ((set_voxel_frame 1 0 0 7 (fun _ => 0)).2 (by decide)).1
  · exact ((set_voxel_frame 1 0 0 7 (fun _ => 0)).2 (by decide)).2 2 0 0 (by decide) (by decide)

/-! ### C2: clip interval ordering and the entry clamp -/

/-- The grid bounding box `[0, GRID_X] × [0, GRID_Y] × [0, GRID_Z]`
(membership of a point, boundary included). -/
def inside_box (v : Vec3) : Prop :=
  0 ≤ v.x ∧ v.x ≤ (GRID_X : ℚ) ∧ 0 ≤ v.y ∧ v.y ≤ (GRID_Y : ℚ) ∧
  0 ≤ v.z ∧ v.z ≤ (GRID_Z : ℚ)

instance (v : Vec3) : Decidable (inside_box v) := by
  unfold inside_box; infer_instance

lemma fmax_nonpos {a b : ℚ} (ha : a ≤ 0) (hb : b ≤ 0) : fmax a b ≤ 0 := by
  unfold fmax; split <;> assumption

lemma le_fmax_left (a b : ℚ) : a ≤ fmax a b := by
  unfold fmax; split <;> linarith

lemma ray_aabb_exit_ge {ro rd : Vec3} {t0 t1 : ℚ}
    (h : ray_aabb ro rd = some (t0, t1)) : fmax t0 0 ≤ t1 := by
  unfold ray_aabb at h
  split at h
  · cases h
  · split at h
    · cases h
    · split at h
      · cases h
      · split_ifs at h with hlt
        rw [Option.some.injEq, Prod.mk.injEq] at h
        obtain ⟨ha, hb⟩ := h
        subst ha
        subst hb
        exact not_lt.mp hlt

lemma axis_slab_entry_nonpos {orig dir mn mx tmin tmax tmin2 tmax2 : ℚ}
    (h : axis_slab orig dir mn mx tmin tmax = some (tmin2, tmax2))
    (h1 : mn ≤ orig) (h2 : orig ≤ mx) (h0 : tmin ≤ 0) : tmin2 ≤ 0 := by
  simp only [axis_slab] at h
  split_ifs at h with hpar hrej htb
  · rw [Option.some.injEq, Prod.mk.injEq] at h
    obtain ⟨ha, _⟩ := h
    subst ha
    exact h0
  · rw [Option.some.injEq, Prod.mk.injEq] at h
    obtain ⟨ha, _⟩ := h
    subst ha
    have hdir : dir ≠ 0 := by
      intro hd0
      apply hpar
      rw [hd0]
      unfold fabs SLAB_EPS
      norm_num
    apply fmax_nonpos h0
    show (mx - orig) * (1 / dir) ≤ 0
    rcases hdir.lt_or_lt with hdn | hdp
    · exact mul_nonpos_iff.mpr (Or.inl ⟨sub_nonneg.mpr h2, (one_div_neg.mpr hdn).le⟩)
    · have ha : (mn - orig) * (1 / dir) ≤ 0 :=
        mul_nonpos_iff.mpr (Or.inr ⟨sub_nonpos.mpr h1, (one_div_pos.mpr hdp).le⟩)
      linarith
  · rw [Option.some.injEq, Prod.mk.injEq] at h
    obtain ⟨ha, _⟩ := h
    subst ha
    have hdir : dir ≠ 0 := by
      intro hd0
      apply hpar
      rw [hd0]
      unfold fabs SLAB_EPS
      norm_num
    apply fmax_nonpos h0
    show (mn - orig) * (1 / dir) ≤ 0
    rcases hdir.lt_or_lt with hdn | hdp
    · have hb : (mx - orig) * (1 / dir) ≤ 0 :=
        mul_nonpos_iff.mpr (Or.inl ⟨sub_nonneg.mpr h2, (one_div_neg.mpr hdn).le⟩)
      push_neg at htb
      linarith
    · exact mul_nonpos_iff.mpr (Or.inr ⟨sub_nonpos.mpr h1, (one_div_pos.mpr hdp).le⟩)

lemma ray_aabb_entry_nonpos {ro rd : Vec3} {t0 t1 : ℚ}
    (h : ray_aabb ro rd = some (t0, t1)) (hin : inside_box ro) : t0 ≤ 0 := by
  obtain ⟨hx0, hx1, hy0, hy1, hz0, hz1⟩ := hin
  unfold ray_aabb at h
  split at h
  · cases h
  next x1 a1 b1 hx =>
    split at h
    · cases h
    next x2 a2 b2 hy =>
      split at h
      · cases h
      next x3 a3 b3 hz =>
        split_ifs at h with hlt
        rw [Option.some.injEq, Prod.mk.injEq] at h
        obtain ⟨ha, hb⟩ := h
        subst ha
        subst hb
        have e1 : a1 ≤ 0 := by
          apply axis_slab_entry_nonpos hx hx0 hx1
          unfold T_INF
          norm_num
        have e2 : a2 ≤ 0 := axis_slab_entry_nonpos hy hy0 hy1 e1
        exact axis_slab_entry_nonpos hz hz0 hz1 e2

/-- C2 (counterexample): for the origin `(12, 8, 12)` inside the grid box
and direction `(1, 0, 0)`, `ray_aabb` reports an intersection whose
returned entry distance is `-12`, not `0`. -/
theorem ray_aabb_inside_entry_counterexample :
    ray_aabb ⟨12, 8, 12⟩ ⟨1, 0, 0⟩ = some (-12, 12) ∧
    inside_box ⟨12, 8, 12⟩ ∧ ((-12 : ℚ) ≠ 0) := by
  refine ⟨?_, by norm_num [inside_box, GRID_X, GRID_Y, GRID_Z], by norm_num⟩
  norm_num [ray_aabb, axis_slab, fabs, fmax, fmin, SLAB_EPS, T_INF, GRID_X, GRID_Y, GRID_Z]

/-- C2 (amended): whenever `ray_aabb` reports an intersection the returned
entry distance is at most the returned exit distance; if the origin lies
inside the grid box the returned raw entry distance is nonpositive, and
the clamped entry `fmax t0 0` that the traverser starts from (line 208)
equals 0, not a negative distance behind the camera. -/
theorem ray_aabb_entry_le_exit (ro rd : Vec3) (t0 t1 : ℚ)
    (h : ray_aabb ro rd = some (t0, t1)) :
    t0 ≤ t1 ∧ (inside_box ro → t0 ≤ 0 ∧ fmax t0 0 = 0) := by
  have hex := ray_aabb_exit_ge h
  refine ⟨le_trans (le_fmax_left t0 0) hex, fun hin => ?_⟩
  have h0 := ray_aabb_entry_nonpos h hin
  refine ⟨h0, ?_⟩
  unfold fmax
  split
  · rfl
  · linarith

/-- C2 (witness): the amended claim evaluated at origin `(12, 8, 12)`,
direction `(1, 0, 0)`, where the clip interval is `[-12, 12]`. -/
theorem ray_aabb_entry_le_exit_witness :
    (-12 : ℚ) ≤ 12 ∧ ((-12 : ℚ) ≤ 0 ∧ fmax (-12 : ℚ) 0 = 0) := by
  have h := ray_aabb_entry_le_exit ⟨12, 8, 12⟩ ⟨1, 0, 0⟩ (-12) 12
    (by norm_num [ray_aabb, axis_slab, fabs, fmax, fmin, SLAB_EPS, T_INF, GRID_X, GRID_Y, GRID_Z])
  exact ⟨h.1, h.2 (by norm_num [inside_box, GRID_X, GRID_Y, GRID_Z])⟩

/-! ### DDA loop infrastructure for C3, C5 and C10 -/

lemma ddaAdvance_steps (s : DDAState) : (ddaAdvance s).steps = s.steps := by
  cases h : ddaPickAxis s.tMax <;> simp [ddaAdvance, h]

lemma ddaLoop_steps_le (V : Int → Nat) (rd : Vec3) (te : ℚ) :
    ∀ fuel s, (ddaLoop V rd te fuel s).steps ≤ s.steps + fuel := by
  intro fuel
  induction fuel with
  | zero => intro s; simp [ddaLoop]
  | succ n ih =>
    intro s
    simp only [ddaLoop]
    split
    · show s.steps ≤ s.steps + (n + 1)
      omega
    · split
      · show s.steps + 1 ≤ s.steps + (n + 1)
        omega
      · calc (ddaLoop V rd te n (ddaAdvance { s with steps := s.steps + 1 })).steps
            ≤ (ddaAdvance { s with steps := s.steps + 1 }).steps + n := ih _
          _ = s.steps + 1 + n := by rw [ddaAdvance_steps]
          _ ≤ s.steps + (n + 1) := by omega

lemma ddaLoop_steps_ge (V : Int → Nat) (rd : Vec3) (te : ℚ) :
    ∀ fuel s, s.steps ≤ (ddaLoop V rd te fuel s).steps := by
  intro fuel
  induction fuel with
  | zero => intro s; simp [ddaLoop]
  | succ n ih =>
    intro s
    simp only [ddaLoop]
    split
    · show s.steps ≤ s.steps
      omega
    · split
      · show s.steps ≤ s.steps + 1
        omega
      · calc s.steps ≤ (ddaAdvance { s with steps := s.steps + 1 }).steps := by
              rw [ddaAdvance_steps]
              show s.steps ≤ s.steps + 1
              omega
          _ ≤ (ddaLoop V rd te n (ddaAdvance { s with steps := s.steps + 1 })).steps := ih _

lemma clamp_i32_bounds (v lo hi : Int) (h : lo ≤ hi) :
    lo ≤ clamp_i32 v lo hi ∧ clamp_i32 v lo hi ≤ hi := by
  unfold clamp_i32
  split_ifs <;> omega

lemma initCell_inside (ro rd : Vec3) (te : ℚ) :
    inside_grid (initCell ro rd te).x (initCell ro rd te).y (initCell ro rd te).z := by
  have hx := clamp_i32_bounds ⌊(Vector3Add ro (Vector3Scale rd (fmax te 0))).x⌋ 0 (GRID_X - 1)
    (by unfold GRID_X; omega)
  have hy := clamp_i32_bounds ⌊(Vector3Add ro (Vector3Scale rd (fmax te 0))).y⌋ 0 (GRID_Y - 1)
    (by unfold GRID_Y; omega)
  have hz := clamp_i32_bounds ⌊(Vector3Add ro (Vector3Scale rd (fmax te 0))).z⌋ 0 (GRID_Z - 1)
    (by unfold GRID_Z; omega)
  have ex : (initCell ro rd te).x =
      clamp_i32 ⌊(Vector3Add ro (Vector3Scale rd (fmax te 0))).x⌋ 0 (GRID_X - 1) := rfl
  have ey : (initCell ro rd te).y =
      clamp_i32 ⌊(Vector3Add ro (Vector3Scale rd (fmax te 0))).y⌋ 0 (GRID_Y - 1) := rfl
  have ez : (initCell ro rd te).z =
      clamp_i32 ⌊(Vector3Add ro (Vector3Scale rd (fmax te 0))).z⌋ 0 (GRID_Z - 1) := rfl
  unfold inside_grid
  rw [ex, ey, ez]
  unfold GRID_X GRID_Y GRID_Z at *
  omega

lemma initState_cell (ro rd : Vec3) (te : ℚ) :
    (initState ro rd te).cell = initCell ro rd te := rfl

lemma initState_t (ro rd : Vec3) (te : ℚ) : (initState ro rd te).t = fmax te 0 := rfl

lemma initState_steps (ro rd : Vec3) (te : ℚ) : (initState ro rd te).steps = 0 := rfl

lemma dda_first_check_passes {ro rd : Vec3} {t0 t1 : ℚ}
    (h : ray_aabb ro rd = some (t0, t1)) :
    ¬(¬ inside_grid (initState ro rd t0).cell.x (initState ro rd t0).cell.y
        (initState ro rd t0).cell.z ∨ (initState ro rd t0).t > t1) := by
  push_neg
  constructor
  · rw [initState_cell]
    exact initCell_inside ro rd t0
  · rw [initState_t]
    exact ray_aabb_exit_ge h

lemma voxel_index_range {x y z : Int} (h : inside_grid x y z) :
    0 ≤ voxel_index x y z ∧ voxel_index x y z < GRID_SIZE := by
  unfold inside_grid GRID_X GRID_Y GRID_Z at h
  unfold voxel_index GRID_SIZE GRID_X GRID_Y GRID_Z
  omega

/-! ### C3: step count is between 1 and 256 when the clip succeeds -/

/-- C3: for every ray whose `ray_aabb` clip succeeds, the step count of
`trace_ray_amanatides_woo` satisfies `1 ≤ steps ≤ 256`: at least one voxel
is tested and the 256-iteration budget is never exceeded. -/
theorem trace_steps_in_budget (V : Int → Nat) (ro rd : Vec3) (t0 t1 : ℚ)
    (h : ray_aabb ro rd = some (t0, t1)) :
    1 ≤ (trace_ray_amanatides_woo V ro rd).steps ∧
    (trace_ray_amanatides_woo V ro rd).steps ≤ 256 := by
  unfold trace_ray_amanatides_woo
  rw [h]
  show 1 ≤ (ddaLoop V rd t1 256 (initState ro rd t0)).steps ∧
    (ddaLoop V rd t1 256 (initState ro rd t0)).steps ≤ 256
  rw [show (256 : Nat) = 255 + 1 from rfl, ddaLoop]
  rw [if_neg (dda_first_check_passes h)]
  dsimp only
  by_cases hid : V (voxel_index (initState ro rd t0).cell.x (initState ro rd t0).cell.y
      (initState ro rd t0).cell.z) = 0
  · rw [if_neg (fun hc => hc hid)]
    constructor
    · calc 1 = (ddaAdvance { initState ro rd t0 with steps := (initState ro rd t0).steps + 1 }).steps := by
            rw [ddaAdvance_steps, initState_steps]
        _ ≤ _ := ddaLoop_steps_ge V rd t1 255 _
    · calc (ddaLoop V rd t1 255 (ddaAdvance { initState ro rd t0 with
            steps := (initState ro rd t0).steps + 1 })).steps
          ≤ (ddaAdvance { initState ro rd t0 with steps := (initState ro rd t0).steps + 1 }).steps
              + 255 := ddaLoop_steps_le V rd t1 255 _
        _ = 256 := by rw [ddaAdvance_steps, initState_steps]
  · rw [if_pos hid]
    show 1 ≤ (initState ro rd t0).steps + 1 ∧ (initState ro rd t0).steps + 1 ≤ 256
    rw [initState_steps]
    omega

/-- C3 (witness): a ray starting inside the grid over an all-solid grid
traces with a step count in `[1, 256]`. -/
theorem trace_steps_in_budget_witness :
    1 ≤ (trace_ray_amanatides_woo (fun _ => 1) ⟨25/2, 17/2, 25/2⟩ ⟨1, 0, 0⟩).steps ∧
    (trace_ray_amanatides_woo (fun _ => 1) ⟨25/2, 17/2, 25/2⟩ ⟨1, 0, 0⟩).steps ≤ 256 :=
  trace_steps_in_budget (fun _ => 1) ⟨25/2, 17/2, 25/2⟩ ⟨1, 0, 0⟩ (-25/2) (23/2)
    (by norm_num [ray_aabb, axis_slab, fabs, fmax, fmin, SLAB_EPS, T_INF, GRID_X, GRID_Y, GRID_Z])

/-! ### C5: traversal only reads in-bounds voxel indices -/

lemma ddaLoop_congr {V W : Int → Nat}
    (h : ∀ i : Int, 0 ≤ i → i < GRID_SIZE → V i = W i) (rd : Vec3) (te : ℚ) :
    ∀ fuel s, ddaLoop V rd te fuel s = ddaLoop W rd te fuel s := by
  intro fuel
  induction fuel with
  | zero => intro s; rfl
  | succ n ih =>
    intro s
    simp only [ddaLoop]
    by_cases hout : ¬ inside_grid s.cell.x s.cell.y s.cell.z ∨ s.t > te
    · rw [if_pos hout, if_pos hout]
    · rw [if_neg hout, if_neg hout]
      push_neg at hout
      have hidx := voxel_index_range hout.1
      have hVW := h _ hidx.1 hidx.2
      rw [hVW]
      by_cases hid : W (voxel_index s.cell.x s.cell.y s.cell.z) ≠ 0
      · rw [if_pos hid, if_pos hid]
      · rw [if_neg hid, if_neg hid]
        exact ih _

/-- C5: every linear voxel index of an in-grid cell lies in
`[0, GRID_SIZE)`, and the traversal reads the voxel array only at in-grid
cells: two voxel arrays that agree on all indices in `[0, GRID_SIZE)`
produce identical traces for every ray, so no out-of-bounds index is ever
dereferenced and the loop terminates once the cell leaves the grid. -/
theorem trace_reads_only_inside :
    (∀ x y z : Int, inside_grid x y z →
      0 ≤ voxel_index x y z ∧ voxel_index x y z < GRID_SIZE) ∧
    (∀ (V W : Int → Nat) (ro rd : Vec3),
      (∀ i : Int, 0 ≤ i → i < GRID_SIZE → V i = W i) →
      trace_ray_amanatides_woo V ro rd = trace_ray_amanatides_woo W ro rd) := by
  refine ⟨fun x y z h => voxel_index_range h, fun V W ro rd h => ?_⟩
  unfold trace_ray_amanatides_woo
  cases hr : ray_aabb ro rd with
  | none => rfl
  | some p =>
    cases p with
    | mk t0 t1 =>
      show ddaLoop V rd t1 256 (initState ro rd t0) = ddaLoop W rd t1 256 (initState ro rd t0)
      exact ddaLoop_congr h rd t1 256 _

/-- C5 (witness): the index bound evaluated at the origin cell, and the
agreement congruence applied to two literally equal grids. -/
theorem trace_reads_only_inside_witness :
    ((0 : Int) ≤ voxel_index 0 0 0 ∧ voxel_index 0 0 0 < GRID_SIZE) ∧
    trace_ray_amanatides_woo (fun _ => 0) ⟨25/2, 17/2, 25/2⟩ ⟨1, 0, 0⟩ =
      trace_ray_amanatides_woo (fun _ => 0) ⟨25/2, 17/2, 25/2⟩ ⟨1, 0, 0⟩ :=
  ⟨trace_reads_only_inside.1 0 0 0 (by decide),
   trace_reads_only_inside.2 (fun _ => 0) (fun _ => 0) ⟨25/2, 17/2, 25/2⟩ ⟨1, 0, 0⟩
     (fun _ _ _ => rfl)⟩

/-! ### C10: a hit in the initial cell is shaded with the default normal -/

/-- C10: whenever the clip succeeds and the initial (clamped) entry voxel
is already occupied, the trace reports a hit after exactly one step and
shades it with the default surface normal `(0, 1, 0)`, regardless of which
box face the ray entered, because the normal is only updated when a DDA
axis step is taken. -/
theorem trace_first_cell_hit_default_normal (V : Int → Nat) (ro rd : Vec3) (t0 t1 : ℚ)
    (hclip : ray_aabb ro rd = some (t0, t1))
    (hocc : V (voxel_index (initCell ro rd t0).x (initCell ro rd t0).y
      (initCell ro rd t0).z) ≠ 0) :
    trace_ray_amanatides_woo V ro rd =
      ⟨true, true, 1,
       shade_hit ⟨0, 1, 0⟩
         (V (voxel_index (initCell ro rd t0).x (initCell ro rd t0).y (initCell ro rd t0).z))
         (initCell ro rd t0).y⟩ := by
  unfold trace_ray_amanatides_woo
  rw [hclip]
  show ddaLoop V rd t1 256 (initState ro rd t0) = _
  rw [show (256 : Nat) = 255 + 1 from rfl, ddaLoop]
  rw [if_neg (dda_first_check_passes hclip)]
  dsimp only
  rw [if_pos (show V (voxel_index (initState ro rd t0).cell.x (initState ro rd t0).cell.y
    (initState ro rd t0).cell.z) ≠ 0 from hocc)]
  rfl

/-- C10 (witness): for a ray starting inside an all-solid grid at cell
`(12, 8, 12)`, the trace is a 1-step hit shaded with normal `(0, 1, 0)`. -/
theorem trace_first_cell_hit_default_normal_witness :
    trace_ray_amanatides_woo (fun _ => 1) ⟨25/2, 17/2, 25/2⟩ ⟨1, 0, 0⟩ =
      ⟨true, true, 1, shade_hit ⟨0, 1, 0⟩ 1 8⟩ := by
  rw [trace_first_cell_hit_default_normal (fun _ => 1) ⟨25/2, 17/2, 25/2⟩ ⟨1, 0, 0⟩
    (-25/2) (23/2)
    (by norm_num [ray_aabb, axis_slab, fabs, fmax, fmin, SLAB_EPS, T_INF, GRID_X, GRID_Y, GRID_Z])
    (by simp)]
  norm_num [initCell, clamp_i32, fmax, Vector3Add, Vector3Scale, GRID_X, GRID_Y, GRID_Z]

/-! ### C9: incremental per-pixel ray equals the closed form -/

/-- C9: for every pixel column `x`, the un-normalized ray direction
produced by the incremental scheme of the render loop (start at
`row_base + right * u_start`, add `right * u_step` once per column)
equals the direct closed-form evaluation
`forward + up * v + right * (u_start + x * u_step)`. -/
theorem incremental_ray_eq_closed_form (forward up right : Vec3)
    (u_start u_step v : ℚ) (x : Nat) :
    incrementalRay forward up right u_start u_step v x =
      closedFormRay forward up right u_start u_step v x := by
  induction x with
  | zero =>
    unfold incrementalRay closedFormRay
    ext <;> simp [Vector3Add, Vector3Scale]
  | succ n ih =>
    unfold incrementalRay
    rw [ih]
    unfold closedFormRay
    ext <;> simp [Vector3Add, Vector3Scale, Nat.cast_succ] <;> ring

/-! ### C7: throughput stats on degenerate elapsed time -/

lemma renderRow_pres (tf : TrigFns) (V : Int → Nat) (cam rsx : Vec3) :
    ∀ (n : Nat) (ray : Vec3) (stats : FrameStats) (px : List Color),
      (renderRow tf V cam rsx n ray stats px).1.rays = stats.rays ∧
      (renderRow tf V cam rsx n ray stats px).1.rays_per_sec = stats.rays_per_sec ∧
      (renderRow tf V cam rsx n ray stats px).1.steps_per_sec = stats.steps_per_sec := by
  intro n
  induction n with
  | zero => intro ray stats px; exact ⟨rfl, rfl, rfl⟩
  | succ m ih =>
    intro ray stats px
    simp only [renderRow]
    refine ⟨?_, ?_, ?_⟩
    · rw [(ih _ _ _).1]; rfl
    · rw [(ih _ _ _).2.1]; rfl
    · rw [(ih _ _ _).2.2]; rfl

lemma renderRows_pres (tf : TrigFns) (V : Int → Nat) (cam forward up right : Vec3)
    (u_start v_start v_step : ℚ) (rsx : Vec3) :
    ∀ (n y : Nat) (stats : FrameStats) (px : List Color),
      (renderRows tf V cam forward up right u_start v_start v_step rsx n y stats px).1.rays
        = stats.rays ∧
      (renderRows tf V cam forward up right u_start v_start v_step rsx n y stats px).1.rays_per_sec
        = stats.rays_per_sec ∧
      (renderRows tf V cam forward up right u_start v_start v_step rsx n y stats px).1.steps_per_sec
        = stats.steps_per_sec := by
  intro n
  induction n with
  | zero => intro y stats px; exact ⟨rfl, rfl, rfl⟩
  | succ m ih =>
    intro y stats px
    simp only [renderRows]
    refine ⟨?_, ?_, ?_⟩
    · rw [(ih _ _ _).1, (renderRow_pres tf V cam rsx _ _ _ _).1]
    · rw [(ih _ _ _).2.1, (renderRow_pres tf V cam rsx _ _ _ _).2.1]
    · rw [(ih _ _ _).2.2, (renderRow_pres tf V cam rsx _ _ _ _).2.2]

lemma finalizeStats_le {dt : ℚ} (s : FrameStats) (h : dt ≤ 1 / 1000000) :
    (finalizeStats dt s).rays_per_sec = s.rays_per_sec ∧
    (finalizeStats dt s).steps_per_sec = s.steps_per_sec := by
  simp only [finalizeStats]
  rw [if_neg (not_lt.mpr h)]
  split_ifs <;> exact ⟨rfl, rfl⟩

lemma finalizeStats_pos {dt : ℚ} (s : FrameStats) (h : dt > 1 / 1000000) :
    (finalizeStats dt s).rays_per_sec = ((finalizeStats dt s).rays : ℚ) / dt ∧
    (finalizeStats dt s).steps_per_sec = ((finalizeStats dt s).total_steps : ℚ) / dt := by
  simp only [finalizeStats]
  rw [if_pos h]
  exact ⟨rfl, rfl⟩

/-- C7: if the frame's elapsed time `dt` is at most the `1e-6` epsilon
(in particular if it is zero), the returned stats have
`rays_per_sec = 0` and `steps_per_sec = 0`; if `dt` exceeds the epsilon
they equal `rays / dt` and `total_steps / dt` respectively. -/
theorem render_throughput_stats (tf : TrigFns) (time_s : ℚ) (fr : Bool)
    (V : Int → Nat) (dt : ℚ) :
    (dt ≤ 1 / 1000000 →
      (render_voxel_image tf time_s fr V dt).1.rays_per_sec = 0 ∧
      (render_voxel_image tf time_s fr V dt).1.steps_per_sec = 0) ∧
    (dt > 1 / 1000000 →
      (render_voxel_image tf time_s fr V dt).1.rays_per_sec =
        ((render_voxel_image tf time_s fr V dt).1.rays : ℚ) / dt ∧
      (render_voxel_image tf time_s fr V dt).1.steps_per_sec =
        ((render_voxel_image tf time_s fr V dt).1.total_steps : ℚ) / dt) := by
  constructor
  · intro hdt
    unfold render_voxel_image
    dsimp only
    constructor
    · rw [(finalizeStats_le _ hdt).1,
        (renderRows_pres _ _ _ _ _ _ _ _ _ _ _ _ _ _).2.1]
    · rw [(finalizeStats_le _ hdt).2,
        (renderRows_pres _ _ _ _ _ _ _ _ _ _ _ _ _ _).2.2]
  · intro hdt
    unfold render_voxel_image
    dsimp only
    exact ⟨(finalizeStats_pos _ hdt).1, (finalizeStats_pos _ hdt).2⟩

/-- C7 (witness): at `dt = 0` the throughput fields of the rendered frame
stats are zero. -/
theorem render_throughput_stats_witness :
    (render_voxel_image ⟨fun _ => 0, fun _ => 0, fun _ => 0, fun _ => 0⟩
      0 true (fun _ => 0) 0).1.rays_per_sec = 0 ∧
    (render_voxel_image ⟨fun _ => 0, fun _ => 0, fun _ => 0, fun _ => 0⟩
      0 true (fun _ => 0) 0).1.steps_per_sec = 0 :=
  (render_throughput_stats ⟨fun _ => 0, fun _ => 0, fun _ => 0, fun _ => 0⟩
    0 true (fun _ => 0) 0).1 (by norm_num)

/-! ### C8: the renderer is deterministic -/

/-- C8: two invocations of the frame renderer with identical elapsed scene
time, identical freeze flag, identical voxel grid, identical elapsed frame
time and the same math-library functions produce equal pixel buffers and
equal stats records. -/
theorem render_deterministic (tf : TrigFns) (ta tb : ℚ) (fa fb : Bool)
    (Va Vb : Int → Nat) (da db : ℚ)
    (ht : ta = tb) (hf : fa = fb) (hV : Va = Vb) (hd : da = db) :
    render_voxel_image tf ta fa Va da = render_voxel_image tf tb fb Vb db := by
  subst ht
  subst hf
  subst hV
  subst hd
  rfl

/-- C8 (witness): the determinism theorem applied at concrete equal
inputs. -/
theorem render_deterministic_witness :
    render_voxel_image ⟨fun _ => 0, fun _ => 0, fun _ => 0, fun _ => 0⟩
        0 true (fun _ => 0) 0 =
      render_voxel_image ⟨fun _ => 0, fun _ => 0, fun _ => 0, fun _ => 0⟩
        0 true (fun _ => 0) 0 :=
  render_deterministic ⟨fun _ => 0, fun _ => 0, fun _ => 0, fun _ => 0⟩
    0 0 true true (fun _ => 0) (fun _ => 0) 0 0 rfl rfl rfl rfl

end VoxelRT
